import Mathlib

/-!
# EPhone service worker (`sw.js`): cache life cycle and fetch interception

A sequential, executable model of the handlers that `sw.js` registers for the
`install`, `activate` and `fetch` events, together with the part of the platform
(`CacheStorage`, `Cache`, `fetch`, promises) that those handlers call.

* A promise is modelled by `Async α`: a computation over the `World` that settles
  either fulfilled (`Except.ok`) or rejected (`Except.error`).  Handlers are run
  to completion one at a time; interleaving with other events is not modelled.
* Work that the script starts without chaining it into the returned promise
  (the `cache.put` calls of the fetch handler) is modelled by `background`:
  its effect takes place, its result is dropped.
* The environment (network, failures of the store) is the record `Platform`.
-/

set_option autoImplicit false

namespace ServiceWorker

/-! ## Platform data -/

/-- The fields of a `Response` that the script inspects, and its body. -/
structure Response where
  status : Nat
  type : String
  body : String
  deriving DecidableEq, Repr

/-- The fields of a `Request` that the script inspects. -/
structure Request where
  method : String
  url : String
  destination : String
  deriving DecidableEq, Repr

/-- A `Cache`: entries keyed by request URL, in insertion order. -/
abbrev Cache := List (String × Response)

/-- The `CacheStorage` of the origin: named caches in creation order. -/
abbrev CacheStorage := List (String × Cache)

/-- What one `caches.delete(name)` call does, as decided by the environment:
the cache is removed (`true`), it was already gone (`false`), or the call rejects. -/
inductive DeleteOutcome where
  | deleted
  | notFound
  | failed (error : String)
  deriving DecidableEq, Repr

/-- The environment of the worker. -/
structure Platform where
  /-- Value of `location.origin`. -/
  locationOrigin : String
  /-- Directory of the script URL; relative locators resolve against it. -/
  baseURL : String
  /-- Outcome of a network `fetch` of the request. -/
  fetch : Request → Except String Response
  /-- Whether storing an entry under this URL fails. -/
  storeFails : String → Bool
  /-- Outcome of `caches.delete` for a cache name. -/
  deleteOutcome : String → DeleteOutcome

/-- Everything the handlers can change or emit. -/
structure World where
  caches : CacheStorage
  /-- Lines written with `console.log` / `console.error`. -/
  console : List String
  /-- URLs requested from the network by the worker, in order. -/
  fetched : List String
  /-- Whether `self.skipWaiting()` was called. -/
  skipWaitingCalled : Bool
  /-- Whether `self.clients.claim()` was called. -/
  clientsClaimed : Bool

/-- A promise: run against the world, it settles fulfilled or rejected. -/
def Async (α : Type) : Type := World → Except String α × World

namespace Async

/-- A promise already fulfilled with `a`. -/
def resolve {α : Type} (a : α) : Async α := fun w => (Except.ok a, w)

/-- A promise already rejected with `e`. -/
def reject {α : Type} (e : String) : Async α := fun w => (Except.error e, w)

/-- The method `p.then(f)`: `f` runs only when `p` fulfils; a rejection passes on. -/
def andThen {α β : Type} (p : Async α) (f : α → Async β) : Async β := fun w =>
  match p w with
  | (Except.ok a, w1) => f a w1
  | (Except.error e, w1) => (Except.error e, w1)

/-- The method `p.catch(h)`: `h` runs only when `p` rejects, and its result settles
the returned promise. -/
def orCatch {α : Type} (p : Async α) (h : String → Async α) : Async α := fun w =>
  match p w with
  | (Except.ok a, w1) => (Except.ok a, w1)
  | (Except.error e, w1) => h e w1

/-- `Promise.all`: every member has already been started, so every member's effect
takes place; the result fulfils with all values, or rejects with the first rejection. -/
def all {α : Type} : List (Async α) → Async (List α)
  | [] => resolve []
  | p :: ps => fun w =>
    match p w with
    | (Except.ok a, w1) =>
      match all ps w1 with
      | (Except.ok as, w2) => (Except.ok (a :: as), w2)
      | (Except.error e, w2) => (Except.error e, w2)
    | (Except.error e, w1) => (Except.error e, (all ps w1).2)

/-- Work started but not chained into any returned promise: the effect happens,
the outcome (value or rejection) is observed by nobody. -/
def background {α : Type} (p : Async α) : Async Unit := fun w => (Except.ok (), (p w).2)

end Async

/-! ## Platform operations -/

/-- `console.log(msg)` and `console.error(msg)`. -/
def consoleLog (msg : String) : Async Unit := fun w =>
  (Except.ok (), { w with console := w.console ++ [msg] })

/-- Lookup of a URL in one cache (`cache.match`).  Entries are matched by URL: every
lookup of the script is made for a GET request, and `Vary` headers are not modelled. -/
def Cache.lookup (c : Cache) (url : String) : Option Response :=
  match c with
  | [] => none
  | (k, r) :: rest => if k = url then some r else Cache.lookup rest url

/-- The cache without its entry for a URL. -/
def Cache.without (c : Cache) (url : String) : Cache :=
  match c with
  | [] => []
  | (k, r) :: rest => if k = url then Cache.without rest url else (k, r) :: Cache.without rest url

/-- Store an entry in one cache (`cache.put`): an entry with the same key is replaced. -/
def Cache.insert (c : Cache) (url : String) (r : Response) : Cache :=
  Cache.without c url ++ [(url, r)]

/-- The cache called `name`, empty when there is none. -/
def CacheStorage.get (cs : CacheStorage) (name : String) : Cache :=
  match cs with
  | [] => []
  | (n, c) :: rest => if n = name then c else CacheStorage.get rest name

/-- Whether a cache called `name` exists (`caches.has`). -/
def CacheStorage.has (cs : CacheStorage) (name : String) : Bool :=
  match cs with
  | [] => false
  | (n, _) :: rest => if n = name then true else CacheStorage.has rest name

/-- Create the cache called `name` if it is absent (`caches.open`); a new cache is
last in creation order. -/
def CacheStorage.opened (cs : CacheStorage) (name : String) : CacheStorage :=
  if cs.has name then cs else cs ++ [(name, [])]

/-- Replace the content of the cache called `name`. -/
def CacheStorage.set (cs : CacheStorage) (name : String) (c : Cache) : CacheStorage :=
  match cs with
  | [] => []
  | (n, d) :: rest =>
    if n = name then (n, c) :: CacheStorage.set rest name c
    else (n, d) :: CacheStorage.set rest name c

/-- Lookup across all caches in creation order (`caches.match`): the first cache that
holds an entry for the URL answers. -/
def CacheStorage.lookup (cs : CacheStorage) (url : String) : Option Response :=
  match cs with
  | [] => none
  | (_, c) :: rest =>
    match c.lookup url with
    | some r => some r
    | none => CacheStorage.lookup rest url

/-- Remove the cache called `name`. -/
def CacheStorage.remove (cs : CacheStorage) (name : String) : CacheStorage :=
  match cs with
  | [] => []
  | (n, d) :: rest =>
    if n = name then CacheStorage.remove rest name else (n, d) :: CacheStorage.remove rest name

/-- The promise of `caches.open(name)`; the handle it yields is the cache name. -/
def cachesOpen (name : String) : Async String := fun w =>
  (Except.ok name, { w with caches := w.caches.opened name })

/-- The promise of `caches.match(url)`. -/
def cachesMatch (url : String) : Async (Option Response) := fun w =>
  (Except.ok (w.caches.lookup url), w)

/-- The promise of `caches.keys()`. -/
def cachesKeys : Async (List String) := fun w => (Except.ok (w.caches.map Prod.fst), w)

/-- The promise of `caches.delete(name)`. -/
def cachesDelete (P : Platform) (name : String) : Async Bool := fun w =>
  match P.deleteOutcome name with
  | DeleteOutcome.deleted => (Except.ok true, { w with caches := w.caches.remove name })
  | DeleteOutcome.notFound => (Except.ok false, { w with caches := w.caches.remove name })
  | DeleteOutcome.failed e => (Except.error e, w)

/-- The promise of `cache.match(url)` on the cache called `cache`. -/
def cacheMatch (cache : String) (url : String) : Async (Option Response) := fun w =>
  (Except.ok ((w.caches.get cache).lookup url), w)

/-- The promise of `cache.put(url, r)` on the cache called `cache`. -/
def cachePut (P : Platform) (cache : String) (url : String) (r : Response) : Async Unit :=
  fun w =>
    if P.storeFails url then (Except.error "QuotaExceededError", w)
    else (Except.ok (),
      { w with caches := w.caches.set cache ((w.caches.get cache).insert url r) })

/-- The promise of `fetch(request)`: the request goes to the network. -/
def fetch (P : Platform) (request : Request) : Async Response := fun w =>
  (P.fetch request, { w with fetched := w.fetched ++ [request.url] })

/-- The promise of `self.skipWaiting()`. -/
def skipWaiting : Async Unit := fun w => (Except.ok (), { w with skipWaitingCalled := true })

/-- The promise of `self.clients.claim()`. -/
def clientsClaim : Async Unit := fun w => (Except.ok (), { w with clientsClaimed := true })

/-- Resolution of a locator of the script against the directory of the script URL:
a locator that starts with `./` is relative, any other one is taken as absolute
(the only two forms of locator that occur in the script). -/
def resolveURL (P : Platform) (locator : String) : String :=
  match locator.toList with
  | '.' :: '/' :: rest => P.baseURL ++ String.mk rest
  | _ => locator

/-- The request that `cache.addAll` builds for a URL. -/
def getRequest (url : String) : Request := { method := "GET", url := url, destination := "" }

/-- Whether a status is an ok status (200 to 299). -/
def Response.ok (r : Response) : Bool := decide (200 ≤ r.status) && decide (r.status ≤ 299)

/-- The fetch phase of `cache.addAll`: every URL is requested; the phase fails when a
request fails or a response does not have an ok status. -/
def fetchAll (P : Platform) : List String → Async (List (String × Response))
  | [] => Async.resolve []
  | url :: urls =>
    (fetch P (getRequest url)).andThen fun r =>
      if r.ok then (fetchAll P urls).andThen fun rs => Async.resolve ((url, r) :: rs)
      else Async.reject "TypeError"

/-- The promise of `cache.addAll(urls)` on the cache called `cache`: all responses are
fetched first, then stored as one batch; when anything fails nothing is stored. -/
def cacheAddAll (P : Platform) (cache : String) (urls : List String) : Async Unit :=
  (fetchAll P urls).andThen fun entries => fun w =>
    if entries.any (fun e => P.storeFails e.1) then (Except.error "QuotaExceededError", w)
    else
      let filled := entries.foldl (fun c e => c.insert e.1 e.2) (w.caches.get cache)
      (Except.ok (), { w with caches := w.caches.set cache filled })

/-- The origin of a serialized `http(s)` URL without credentials
(`new URL(url).origin`): scheme, `://`, and host with port, which end at the first
`/` after them. -/
def urlOrigin (url : String) : String :=
  let scheme := url.toList.takeWhile (fun c => c ≠ ':')
  match url.toList.dropWhile (fun c => c ≠ ':') with
  | ':' :: '/' :: '/' :: rest =>
    String.mk (scheme ++ [':', '/', '/'] ++ rest.takeWhile (fun c => c ≠ '/'))
  | _ => "null"

/-! ## Regular expressions used by the script -/

/-- The atoms that occur in the patterns of the script: the assertion `^` and
literal characters (an escaped `\/` or `\.` is the literal character). -/
inductive Atom where
  | start
  | char (c : Char)
  deriving DecidableEq, Repr

/-- A pattern without flags: a sequence of atoms. -/
abbrev RegExp := List Atom

/-- Match the atoms against the input at a position: `pos` characters precede `rest`. -/
def RegExp.matchAt : RegExp → Nat → List Char → Bool
  | [], _, _ => true
  | Atom.start :: as, pos, rest => decide (pos = 0) && RegExp.matchAt as pos rest
  | Atom.char _ :: _, _, [] => false
  | Atom.char c :: as, pos, d :: rest => decide (c = d) && RegExp.matchAt as (pos + 1) rest

/-- Search for a match that starts at position `pos` or later. -/
def RegExp.search (p : RegExp) : Nat → List Char → Bool
  | pos, [] => RegExp.matchAt p pos []
  | pos, d :: rest => RegExp.matchAt p pos (d :: rest) || RegExp.search p (pos + 1) rest

/-- The method `pattern.test(s)`: is there a match anywhere in `s`. -/
def RegExp.test (p : RegExp) (s : String) : Bool := RegExp.search p 0 s.toList

/-- The pattern `/^lit/` for a literal text. -/
def RegExp.anchored (lit : String) : RegExp := Atom.start :: lit.toList.map Atom.char

/-! ## The script `sw.js` -/

def CACHE_NAME : String := "ephone-v1.3.0"
def STATIC_CACHE_NAME : String := "ephone-static-v1.3.0"
def DYNAMIC_CACHE_NAME : String := "ephone-dynamic-v1.3.0"

/-- The static resources to cache at install. -/
def STATIC_ASSETS : List String :=
  [ "./",
    "./index.html",
    "./manifest.json",
    "https://i.postimg.cc/28p9L8FY/sogou20250606-073214826037-png.png" ]

/-- The patterns of the external resources to cache. -/
def DYNAMIC_PATTERNS : List RegExp :=
  [ RegExp.anchored "https://unpkg.com/",
    RegExp.anchored "https://cdnjs.cloudflare.com/",
    RegExp.anchored "https://fonts.googleapis.com/",
    RegExp.anchored "https://fonts.gstatic.com/" ]

/-- The `install` listener: the result is the promise given to `event.waitUntil`. -/
def installHandler (P : Platform) : Async Unit :=
  (consoleLog "Service Worker: Installing...").andThen fun _ =>
    (((cachesOpen STATIC_CACHE_NAME).andThen fun cache =>
        (consoleLog "Service Worker: Caching static assets").andThen fun _ =>
          cacheAddAll P cache (STATIC_ASSETS.map (resolveURL P))).andThen fun _ =>
        (consoleLog "Service Worker: Static assets cached successfully").andThen fun _ =>
          skipWaiting).orCatch fun error =>
      consoleLog ("Service Worker: Failed to cache static assets " ++ error)

/-- The `activate` listener: the result is the promise given to `event.waitUntil`. -/
def activateHandler (P : Platform) : Async Unit :=
  (consoleLog "Service Worker: Activating...").andThen fun _ =>
    (cachesKeys.andThen fun cacheNames =>
        Async.all (cacheNames.map fun cacheName =>
          if cacheName ≠ STATIC_CACHE_NAME ∧ cacheName ≠ DYNAMIC_CACHE_NAME then
            (consoleLog ("Service Worker: Deleting old cache: " ++ cacheName)).andThen fun _ =>
              (cachesDelete P cacheName).andThen fun deleted => Async.resolve (some deleted)
          else Async.resolve none)).andThen fun _ =>
      (consoleLog "Service Worker: Activated successfully").andThen fun _ =>
        clientsClaim

/-- The same-origin branch of the `fetch` listener: the promise given to
`event.respondWith`.  It fulfils with `none` when the script hands over `undefined`.
A fulfilled `fetch` always carries a response, so the test `!response` of the script
never holds and has no counterpart here. -/
def sameOriginStrategy (P : Platform) (request : Request) : Async (Option Response) :=
  (cachesMatch request.url).andThen fun cached =>
    match cached with
    | some response =>
      (consoleLog ("Service Worker: Serving from cache: " ++ request.url)).andThen fun _ =>
        Async.resolve (some response)
    | none =>
      ((fetch P request).andThen fun response =>
          if response.status ≠ 200 ∨ response.type ≠ "basic" then
            Async.resolve (some response)
          else
            (Async.background ((cachesOpen STATIC_CACHE_NAME).andThen fun cache =>
                cachePut P cache request.url response)).andThen fun _ =>
              Async.resolve (some response)).orCatch fun error =>
        (consoleLog ("Service Worker: Fetch failed: " ++ error)).andThen fun _ =>
          if request.destination = "document" then
            cachesMatch (resolveURL P "./index.html")
          else Async.reject error

/-- The external-resource branch of the `fetch` listener: the promise given to
`event.respondWith`. -/
def externalStrategy (P : Platform) (request : Request) : Async (Option Response) :=
  (cachesOpen DYNAMIC_CACHE_NAME).andThen fun cache =>
    (cacheMatch cache request.url).andThen fun cached =>
      match cached with
      | some response =>
        (consoleLog ("Service Worker: Serving external resource from cache: "
            ++ request.url)).andThen fun _ =>
          Async.resolve (some response)
      | none =>
        ((fetch P request).andThen fun response =>
            if response.status = 200 then
              (Async.background (cachePut P cache request.url response)).andThen fun _ =>
                Async.resolve (some response)
            else Async.resolve (some response)).orCatch fun error =>
          (consoleLog ("Service Worker: External resource fetch failed: "
              ++ error)).andThen fun _ =>
            Async.reject error

/-- The `fetch` listener: `none` when it returns without calling `event.respondWith`
(the request is left to the browser), otherwise the promise given to `respondWith`. -/
def fetchHandler (P : Platform) (request : Request) : Option (Async (Option Response)) :=
  if request.method ≠ "GET" then
    none
  else if urlOrigin request.url = P.locationOrigin then
    some (sameOriginStrategy P request)
  else if DYNAMIC_PATTERNS.any (fun pattern => pattern.test request.url) then
    some (externalStrategy P request)
  else
    none

/-- A world with the given cache storage in which nothing has happened yet. -/
def World.start (cs : CacheStorage) : World :=
  { caches := cs, console := [], fetched := [], skipWaitingCalled := false,
    clientsClaimed := false }

/-! ## Reference notions taken from the specification -/

/-- The four HTTPS prefixes of the External Origin Whitelist, as the specification
lists them. -/
def WHITELIST : List String :=
  [ "https://unpkg.com/",
    "https://cdnjs.cloudflare.com/",
    "https://fonts.googleapis.com/",
    "https://fonts.gstatic.com/" ]

/-- The text `url` begins with the text `start`. -/
def beginsWith (url start : String) : Bool := start.toList.isPrefixOf url.toList

/-- The manifest locator that is an absolute external image URL. -/
def IMAGE_URL : String := "https://i.postimg.cc/28p9L8FY/sogou20250606-073214826037-png.png"

/-! ## Named callbacks and sample environments used in the statements -/

/-- A platform used in the concrete checks: the application is served from
`https://app.example/`, the network is down, the store and deletions work. -/
def offlinePlatform : Platform :=
  { locationOrigin := "https://app.example"
    baseURL := "https://app.example/"
    fetch := fun _ => Except.error "offline"
    storeFails := fun _ => false
    deleteOutcome := fun _ => DeleteOutcome.deleted }

/-- The application shell as stored by the previous version. -/
def oldPage : Response := { status := 200, type := "basic", body := "<html>v1.2.0</html>" }

/-- The application shell as stored by the current version. -/
def newPage : Response := { status := 200, type := "basic", body := "<html>v1.3.0</html>" }

/-- A storage in which the static partition of the previous version, created first,
still exists next to the current Static Partition; both hold the shell page. -/
def staleFirst : CacheStorage :=
  [ ("ephone-static-v1.2.0", [("https://app.example/index.html", oldPage)]),
    ("ephone-static-v1.3.0", [("https://app.example/index.html", newPage)]) ]

/-- A platform whose network answers every request with the current shell page. -/
def onlinePlatform : Platform :=
  { locationOrigin := "https://app.example"
    baseURL := "https://app.example/"
    fetch := fun _ => Except.ok newPage
    storeFails := fun _ => false
    deleteOutcome := fun _ => DeleteOutcome.deleted }

/-- A library as served by a whitelisted external origin. -/
def libScript : Response := { status := 200, type := "cors", body := "export default 1" }

/-- A platform whose network answers every request with `libScript`. -/
def cdnPlatform : Platform :=
  { locationOrigin := "https://app.example"
    baseURL := "https://app.example/"
    fetch := fun _ => Except.ok libScript
    storeFails := fun _ => false
    deleteOutcome := fun _ => DeleteOutcome.deleted }

/-- A platform on which every resource can be fetched except the web manifest of the
application, whose request fails. -/
def brokenManifestPlatform : Platform :=
  { locationOrigin := "https://app.example"
    baseURL := "https://app.example/"
    fetch := fun request =>
      if request.url = "https://app.example/manifest.json" then
        Except.error "TypeError: Failed to fetch"
      else Except.ok newPage
    storeFails := fun _ => false
    deleteOutcome := fun _ => DeleteOutcome.deleted }

/-- Whether a `caches.delete` outcome is a rejection. -/
def DeleteOutcome.isFailed : DeleteOutcome → Bool
  | DeleteOutcome.failed _ => true
  | _ => false

/-- The callback that the activate listener maps over the cache names. -/
def deleteOld (P : Platform) (cacheName : String) : Async (Option Bool) :=
  if cacheName ≠ STATIC_CACHE_NAME ∧ cacheName ≠ DYNAMIC_CACHE_NAME then
    (consoleLog ("Service Worker: Deleting old cache: " ++ cacheName)).andThen fun _ =>
      (cachesDelete P cacheName).andThen fun deleted => Async.resolve (some deleted)
  else Async.resolve none

/-- A cache name of the current version. -/
def isCurrent (name : String) : Bool :=
  decide (name = STATIC_CACHE_NAME) || decide (name = DYNAMIC_CACHE_NAME)

/-- A platform on which the deletion of the previous static partition rejects. -/
def failingDeletePlatform : Platform :=
  { locationOrigin := "https://app.example"
    baseURL := "https://app.example/"
    fetch := fun _ => Except.error "offline"
    storeFails := fun _ => false
    deleteOutcome := fun name =>
      if name = "ephone-static-v1.2.0" then DeleteOutcome.failed "UnknownError"
      else DeleteOutcome.deleted }

/-! ## Lemmas on the pattern matcher -/

theorem matchAt_chars (lit : List Char) (pos : Nat) (rest : List Char) :
    RegExp.matchAt (lit.map Atom.char) pos rest = lit.isPrefixOf rest := by
  induction lit generalizing pos rest with
  | nil => simp [RegExp.matchAt]
  | cons c cs ih =>
    cases rest with
    | nil => simp [RegExp.matchAt]
    | cons d ds =>
      simp only [List.map_cons, RegExp.matchAt, ih, List.isPrefixOf]
      by_cases h : c = d <;> simp [h]

theorem search_start_pos (as : RegExp) (pos : Nat) (rest : List Char) :
    RegExp.search (Atom.start :: as) (pos + 1) rest = false := by
  induction rest generalizing pos with
  | nil => simp [RegExp.search, RegExp.matchAt]
  | cons d ds ih => simp [RegExp.search, RegExp.matchAt, ih]

/-- An anchored literal pattern tests whether the text begins with the literal. -/
theorem test_anchored (lit s : String) :
    RegExp.test (RegExp.anchored lit) s = beginsWith s lit := by
  unfold RegExp.test RegExp.anchored beginsWith
  cases h : s.toList with
  | nil => simp [RegExp.search, RegExp.matchAt, matchAt_chars]
  | cons d ds => simp [RegExp.search, RegExp.matchAt, matchAt_chars, search_start_pos]

theorem patterns_any_eq (url : String) :
    DYNAMIC_PATTERNS.any (fun pattern => pattern.test url)
      = WHITELIST.any (fun start => beginsWith url start) := by
  simp [DYNAMIC_PATTERNS, WHITELIST, test_anchored]

theorem beginsWith_iff (url start : String) :
    beginsWith url start = true ↔ ∃ rest : String, url = start ++ rest := by
  unfold beginsWith
  rw [List.isPrefixOf_iff_prefix]
  constructor
  · rintro ⟨t, ht⟩
    exact ⟨String.mk t, String.ext (by simpa using ht.symm)⟩
  · rintro ⟨rest, rfl⟩
    exact ⟨rest.toList, by simp⟩

/-! ## Routing of the fetch listener -/

theorem whitelist_any_iff (url : String) :
    WHITELIST.any (fun start => beginsWith url start) = true ↔
      ∃ start ∈ WHITELIST, ∃ rest : String, url = start ++ rest := by
  rw [List.any_eq_true]
  constructor
  · rintro ⟨start, hmem, hb⟩
    exact ⟨start, hmem, (beginsWith_iff url start).1 hb⟩
  · rintro ⟨start, hmem, hb⟩
    exact ⟨start, hmem, (beginsWith_iff url start).2 hb⟩

theorem routes_to_external (P : Platform) (request : Request)
    (hm : request.method = "GET") (ho : urlOrigin request.url ≠ P.locationOrigin)
    (hw : ∃ start ∈ WHITELIST, ∃ rest : String, request.url = start ++ rest) :
    fetchHandler P request = some (externalStrategy P request) := by
  have hany := (whitelist_any_iff request.url).2 hw
  unfold fetchHandler
  rw [patterns_any_eq]
  simp only [hm, ho, hany, ne_eq, not_true_eq_false, if_false, if_true]

/-- C5: the routing decision of the fetch listener.  A request is left un-intercepted
(the listener returns without `respondWith`, hence without any cache or network
operation) exactly when its method is not GET, or it is cross-origin and its URL
begins with none of the four whitelisted HTTPS prefixes; a same-origin GET takes the
same-origin (static-first) strategy; any other GET whose URL begins with one of the
prefixes takes the external (dynamic-first) strategy.  In particular a POST to any
URL, and cross-origin GETs to `https://example.com/x` and to the non-HTTPS
`http://unpkg.com/lib.js`, are not intercepted. -/
theorem fetch_routing (P : Platform) (request : Request) :
    (fetchHandler P request = none ↔
      (request.method ≠ "GET" ∨
        (urlOrigin request.url ≠ P.locationOrigin ∧
          ∀ start ∈ WHITELIST, ¬ ∃ rest : String, request.url = start ++ rest))) ∧
    (request.method = "GET" → urlOrigin request.url = P.locationOrigin →
      fetchHandler P request = some (sameOriginStrategy P request)) ∧
    (request.method = "GET" → urlOrigin request.url ≠ P.locationOrigin →
      (∃ start ∈ WHITELIST, ∃ rest : String, request.url = start ++ rest) →
      fetchHandler P request = some (externalStrategy P request)) ∧
    (∀ url destination : String, fetchHandler P ⟨"POST", url, destination⟩ = none) ∧
    (∀ destination : String, P.locationOrigin ≠ "https://example.com" →
      fetchHandler P ⟨"GET", "https://example.com/x", destination⟩ = none) ∧
    (∀ destination : String, P.locationOrigin ≠ "http://unpkg.com" →
      fetchHandler P ⟨"GET", "http://unpkg.com/lib.js", destination⟩ = none) := by
  have hwl := whitelist_any_iff
  refine ⟨?_, ?_, ?_, ?_, ?_, ?_⟩
  · unfold fetchHandler
    rw [patterns_any_eq]
    by_cases hm : request.method = "GET"
    · by_cases ho : urlOrigin request.url = P.locationOrigin
      · simp [hm, ho]
      · by_cases hw : WHITELIST.any (fun start => beginsWith request.url start) = true
        · have hex := (hwl request.url).1 hw
          simp only [hm, ho, hw, ne_eq, not_true_eq_false, if_false, if_true,
            not_false_eq_true, true_and, false_or]
          constructor
          · intro h; cases h
          · intro h
            obtain ⟨start, hmem, hrest⟩ := hex
            exact absurd hrest (h start hmem)
        · have hex : ¬ ∃ start ∈ WHITELIST, ∃ rest : String, request.url = start ++ rest :=
            fun h => hw ((hwl request.url).2 h)
          simp only [hm, ho, hw, ne_eq, not_true_eq_false, if_false, not_false_eq_true,
            true_and, false_or]
          constructor
          · intro _ start hmem hrest
            exact hex ⟨start, hmem, hrest⟩
          · intro _
            simp
    · simp [hm]
  · intro hm ho
    simp [fetchHandler, hm, ho]
  · exact routes_to_external P request
  · intro url destination
    simp [fetchHandler]
  · intro destination ho
    have h1 : urlOrigin "https://example.com/x" = "https://example.com" := by decide
    have h2 : (DYNAMIC_PATTERNS.any fun pattern => pattern.test "https://example.com/x")
        = false := by decide
    simp [fetchHandler, h1, h2, Ne.symm ho]
  · intro destination ho
    have h1 : urlOrigin "http://unpkg.com/lib.js" = "http://unpkg.com" := by decide
    have h2 : (DYNAMIC_PATTERNS.any fun pattern => pattern.test "http://unpkg.com/lib.js")
        = false := by decide
    simp [fetchHandler, h1, h2, Ne.symm ho]

/-- Check of C5 on concrete requests of an application served from
`https://app.example`. -/
theorem fetch_routing_witness :
    fetchHandler offlinePlatform ⟨"GET", "https://app.example/index.html", "document"⟩
      = some (sameOriginStrategy offlinePlatform
          ⟨"GET", "https://app.example/index.html", "document"⟩) ∧
    fetchHandler offlinePlatform ⟨"GET", "https://unpkg.com/lib.js", "script"⟩
      = some (externalStrategy offlinePlatform ⟨"GET", "https://unpkg.com/lib.js", "script"⟩) ∧
    fetchHandler offlinePlatform ⟨"GET", "https://example.com/x", ""⟩ = none ∧
    fetchHandler offlinePlatform ⟨"GET", "http://unpkg.com/lib.js", ""⟩ = none :=
  ⟨(fetch_routing offlinePlatform ⟨"GET", "https://app.example/index.html", "document"⟩).2.1
      rfl (by decide),
    (fetch_routing offlinePlatform ⟨"GET", "https://unpkg.com/lib.js", "script"⟩).2.2.1
      rfl (by decide) ⟨"https://unpkg.com/", by decide, "lib.js", by decide⟩,
    (fetch_routing offlinePlatform ⟨"GET", "", ""⟩).2.2.2.2.1 "" (by decide),
    (fetch_routing offlinePlatform ⟨"GET", "", ""⟩).2.2.2.2.2 "" (by decide)⟩

/-- C10: the manifest holds a locator that the fetch listener never serves from a
cache.  For every application origin other than `https://i.postimg.cc`, a GET request
for the absolute image URL of the manifest is not same-origin and no whitelist
pattern matches it, so the listener returns without `respondWith`: no cache, the
Static Partition included, is consulted. -/
theorem image_locator_not_intercepted (P : Platform) (destination : String)
    (h : P.locationOrigin ≠ "https://i.postimg.cc") :
    IMAGE_URL ∈ STATIC_ASSETS ∧
    resolveURL P IMAGE_URL = IMAGE_URL ∧
    urlOrigin IMAGE_URL ≠ P.locationOrigin ∧
    (∀ pattern ∈ DYNAMIC_PATTERNS, pattern.test IMAGE_URL = false) ∧
    fetchHandler P ⟨"GET", IMAGE_URL, destination⟩ = none := by
  have h1 : urlOrigin IMAGE_URL = "https://i.postimg.cc" := by decide
  have h2 : (DYNAMIC_PATTERNS.any fun pattern => pattern.test IMAGE_URL) = false := by decide
  refine ⟨by decide, rfl, ?_, ?_, ?_⟩
  · rw [h1]; exact Ne.symm h
  · intro pattern hmem
    have := List.any_eq_false.1 h2 pattern hmem
    simpa using this
  · simp [fetchHandler, h1, h2, Ne.symm h]

/-- Check of C10 for an application served from `https://app.example`. -/
theorem image_locator_not_intercepted_witness :
    offlinePlatform.locationOrigin ≠ "https://i.postimg.cc" ∧
    fetchHandler offlinePlatform ⟨"GET", IMAGE_URL, "image"⟩ = none :=
  ⟨by decide, (image_locator_not_intercepted offlinePlatform "image" (by decide)).2.2.2.2⟩

/-! ## Lemmas on caches and the cache storage -/

theorem Cache.lookup_append_miss (c d : Cache) (url : String) (h : c.lookup url = none) :
    Cache.lookup (c ++ d) url = d.lookup url := by
  induction c with
  | nil => rfl
  | cons e rest ih =>
    obtain ⟨k, r⟩ := e
    by_cases hk : k = url
    · simp [Cache.lookup, hk] at h
    · simp only [Cache.lookup, hk, if_false] at h
      simp only [List.cons_append, Cache.lookup, hk, if_false]
      exact ih h

theorem Cache.lookup_append_hit (c d : Cache) (url : String) (r : Response)
    (h : c.lookup url = some r) : Cache.lookup (c ++ d) url = some r := by
  induction c with
  | nil => simp [Cache.lookup] at h
  | cons e rest ih =>
    obtain ⟨k, r1⟩ := e
    by_cases hk : k = url
    · simp only [Cache.lookup, hk, if_true] at h
      simp [Cache.lookup, hk, h]
    · simp only [Cache.lookup, hk, if_false] at h
      simp only [List.cons_append, Cache.lookup, hk, if_false]
      exact ih h

theorem Cache.lookup_without_self (c : Cache) (url : String) :
    (c.without url).lookup url = none := by
  induction c with
  | nil => rfl
  | cons e rest ih =>
    obtain ⟨k, r⟩ := e
    by_cases hk : k = url
    · simp [Cache.without, hk, ih]
    · simp [Cache.without, hk, Cache.lookup, ih]

theorem Cache.lookup_without_other (c : Cache) (key url : String) (h : key ≠ url) :
    (c.without key).lookup url = c.lookup url := by
  induction c with
  | nil => rfl
  | cons e rest ih =>
    obtain ⟨k, r⟩ := e
    by_cases hk : k = key
    · have hku : k ≠ url := by rw [hk]; exact h
      simp [Cache.without, hk, Cache.lookup, h, ih]
    · by_cases hu : k = url
      · subst hu
        simp [Cache.without, hk, Cache.lookup]
      · simp [Cache.without, hk, Cache.lookup, hu, ih]

/-- What a cache answers after `put`. -/
theorem Cache.lookup_insert (c : Cache) (key url : String) (r : Response) :
    (c.insert key r).lookup url = if key = url then some r else c.lookup url := by
  unfold Cache.insert
  by_cases h : key = url
  · subst h
    rw [Cache.lookup_append_miss _ _ _ (Cache.lookup_without_self c key)]
    simp [Cache.lookup]
  · simp only [h, if_false]
    cases hc : c.lookup url with
    | none =>
      rw [Cache.lookup_append_miss _ _ _ (by rw [Cache.lookup_without_other c key url h]; exact hc)]
      simp [Cache.lookup, h]
    | some r1 =>
      exact Cache.lookup_append_hit _ _ _ _
        (by rw [Cache.lookup_without_other c key url h]; exact hc)

theorem CacheStorage.lookup_append (pre post : CacheStorage) (url : String) :
    CacheStorage.lookup (pre ++ post) url
      = match pre.lookup url with
        | some r => some r
        | none => post.lookup url := by
  induction pre with
  | nil => rfl
  | cons e rest ih =>
    obtain ⟨n, c⟩ := e
    cases hc : c.lookup url with
    | none => simp [CacheStorage.lookup, hc, ih]
    | some r => simp [CacheStorage.lookup, hc]

theorem CacheStorage.get_of_first (pre post : CacheStorage) (name : String) (c : Cache)
    (h : ∀ e ∈ pre, e.1 ≠ name) :
    CacheStorage.get (pre ++ (name, c) :: post) name = c := by
  induction pre with
  | nil => simp [CacheStorage.get]
  | cons e rest ih =>
    obtain ⟨n, d⟩ := e
    have hn : n ≠ name := h (n, d) (List.mem_cons_self _ _)
    simp only [List.cons_append, CacheStorage.get, hn, if_false]
    exact ih (fun e he => h e (List.mem_cons_of_mem _ he))

/-- An entry held by the cache called `name` is found by some cache of the storage. -/
theorem CacheStorage.lookup_isSome_of_get (cs : CacheStorage) (name url : String)
    (r : Response) (h : (cs.get name).lookup url = some r) :
    ∃ r1, cs.lookup url = some r1 := by
  induction cs with
  | nil => simp [CacheStorage.get, Cache.lookup] at h
  | cons e rest ih =>
    obtain ⟨n, c⟩ := e
    cases hc : c.lookup url with
    | some r1 => exact ⟨r1, by simp [CacheStorage.lookup, hc]⟩
    | none =>
      by_cases hn : n = name
      · simp only [CacheStorage.get, hn, if_true] at h
        rw [hc] at h
        cases h
      · simp only [CacheStorage.get, hn, if_false] at h
        obtain ⟨r1, hr1⟩ := ih h
        exact ⟨r1, by simp [CacheStorage.lookup, hc, hr1]⟩

theorem CacheStorage.has_append_self (cs : CacheStorage) (name : String) (c : Cache) :
    CacheStorage.has (cs ++ [(name, c)]) name = true := by
  induction cs with
  | nil => simp [CacheStorage.has]
  | cons e rest ih =>
    obtain ⟨n, d⟩ := e
    by_cases hn : n = name
    · simp [CacheStorage.has, hn]
    · simp [CacheStorage.has, hn, ih]

theorem CacheStorage.has_opened (cs : CacheStorage) (name : String) :
    (cs.opened name).has name = true := by
  unfold CacheStorage.opened
  by_cases h : cs.has name = true
  · simp [h]
  · simp only [h, if_false, Bool.false_eq_true]
    exact CacheStorage.has_append_self cs name []

theorem CacheStorage.lookup_opened (cs : CacheStorage) (name url : String) :
    (cs.opened name).lookup url = cs.lookup url := by
  unfold CacheStorage.opened
  by_cases h : cs.has name = true
  · simp [h]
  · simp only [h, if_false, Bool.false_eq_true]
    rw [CacheStorage.lookup_append]
    cases cs.lookup url <;> simp [CacheStorage.lookup, Cache.lookup]

theorem CacheStorage.get_append_miss (cs : CacheStorage) (name other : String) (c : Cache)
    (h : other ≠ name) :
    CacheStorage.get (cs ++ [(other, c)]) name = cs.get name := by
  induction cs with
  | nil => simp [CacheStorage.get, h]
  | cons e rest ih =>
    obtain ⟨n, d⟩ := e
    by_cases hn : n = name
    · simp [CacheStorage.get, hn]
    · simp [CacheStorage.get, hn, ih]

theorem CacheStorage.get_opened_other (cs : CacheStorage) (name other : String)
    (h : other ≠ name) : (cs.opened other).get name = cs.get name := by
  unfold CacheStorage.opened
  by_cases hh : cs.has other = true
  · simp [hh]
  · simp only [hh, if_false, Bool.false_eq_true]
    exact CacheStorage.get_append_miss cs name other [] h

theorem CacheStorage.get_set (cs : CacheStorage) (name : String) (c : Cache)
    (h : cs.has name = true) : (cs.set name c).get name = c := by
  induction cs with
  | nil => simp [CacheStorage.has] at h
  | cons e rest ih =>
    obtain ⟨n, d⟩ := e
    by_cases hn : n = name
    · simp [CacheStorage.set, CacheStorage.get, hn]
    · have hr : CacheStorage.has rest name = true := by
        simpa [CacheStorage.has, hn] using h
      simp [CacheStorage.set, CacheStorage.get, hn, ih hr]

theorem CacheStorage.get_set_other (cs : CacheStorage) (name other : String) (c : Cache)
    (h : other ≠ name) : (cs.set other c).get name = cs.get name := by
  induction cs with
  | nil => rfl
  | cons e rest ih =>
    obtain ⟨n, d⟩ := e
    by_cases hn : n = other
    · have hon : other ≠ name := h
      simp [CacheStorage.set, CacheStorage.get, hn, hon, ih]
    · by_cases hm : n = name
      · subst hm
        simp [CacheStorage.set, CacheStorage.get, hn]
      · simp [CacheStorage.set, CacheStorage.get, hn, hm, ih]

theorem CacheStorage.lookup_set_miss (cs : CacheStorage) (name url : String) (c : Cache)
    (hmiss : cs.lookup url = none) (hc : c.lookup url = none) :
    (cs.set name c).lookup url = none := by
  induction cs with
  | nil => rfl
  | cons e rest ih =>
    obtain ⟨n, d⟩ := e
    cases hd : d.lookup url with
    | some r => simp [CacheStorage.lookup, hd] at hmiss
    | none =>
      have hrest : CacheStorage.lookup rest url = none := by
        simpa [CacheStorage.lookup, hd] using hmiss
      by_cases hn : n = name
      · simp [CacheStorage.set, CacheStorage.lookup, hn, hc, ih hrest]
      · simp [CacheStorage.set, CacheStorage.lookup, hn, hd, ih hrest]

/-- After the content of the cache called `name` is replaced, a URL that every cache
missed before is answered by the new content. -/
theorem CacheStorage.lookup_set_of_miss (cs : CacheStorage) (name url : String) (c : Cache)
    (hmiss : cs.lookup url = none) (h : cs.has name = true) :
    (cs.set name c).lookup url = c.lookup url := by
  induction cs with
  | nil => simp [CacheStorage.has] at h
  | cons e rest ih =>
    obtain ⟨n, d⟩ := e
    cases hd : d.lookup url with
    | some r => simp [CacheStorage.lookup, hd] at hmiss
    | none =>
      have hrest : CacheStorage.lookup rest url = none := by
        simpa [CacheStorage.lookup, hd] using hmiss
      by_cases hn : n = name
      · cases hc : c.lookup url with
        | some r => simp [CacheStorage.set, CacheStorage.lookup, hn, hc]
        | none =>
          simp [CacheStorage.set, CacheStorage.lookup, hn, hc,
            CacheStorage.lookup_set_miss rest name url c hrest hc]
      · have hr : CacheStorage.has rest name = true := by
          simpa [CacheStorage.has, hn] using h
        simp [CacheStorage.set, CacheStorage.lookup, hn, hd, ih hrest hr]

/-! ## The same-origin strategy -/

/-- C1, refuted as stated: with a stale partition created before the Static Partition
and holding an entry for the same request, a same-origin GET that has the entry
`newPage` in the Static Partition is answered with the stale `oldPage`. -/
theorem static_hit_counterexample :
    urlOrigin "https://app.example/index.html" = offlinePlatform.locationOrigin ∧
    (staleFirst.get STATIC_CACHE_NAME).lookup "https://app.example/index.html"
      = some newPage ∧
    fetchHandler offlinePlatform ⟨"GET", "https://app.example/index.html", "document"⟩
      = some (sameOriginStrategy offlinePlatform
          ⟨"GET", "https://app.example/index.html", "document"⟩) ∧
    (sameOriginStrategy offlinePlatform ⟨"GET", "https://app.example/index.html", "document"⟩
        (World.start staleFirst)).1 = Except.ok (some oldPage) ∧
    oldPage ≠ newPage :=
  ⟨by decide, by decide, rfl, rfl, by decide⟩

/-- C1, amended: for every state of the cache storage and every same-origin GET request
that has an entry in the Static Partition, the fetch listener answers with the entry
of the first partition, in creation order, that holds one for the request, issues no
network request and changes no partition; the answer is the Static Partition's
entry whenever no partition created before the Static Partition holds an entry for
the request. -/
theorem static_hit_first_match (P : Platform) (w : World) (request : Request) (r : Response)
    (hm : request.method = "GET") (ho : urlOrigin request.url = P.locationOrigin)
    (hs : (w.caches.get STATIC_CACHE_NAME).lookup request.url = some r) :
    fetchHandler P request = some (sameOriginStrategy P request) ∧
    (∃ first, w.caches.lookup request.url = some first ∧
      (sameOriginStrategy P request w).1 = Except.ok (some first)) ∧
    (sameOriginStrategy P request w).2.fetched = w.fetched ∧
    (sameOriginStrategy P request w).2.caches = w.caches ∧
    (∀ (pre post : CacheStorage) (c : Cache),
      w.caches = pre ++ (STATIC_CACHE_NAME, c) :: post →
      (∀ e ∈ pre, e.1 ≠ STATIC_CACHE_NAME) → pre.lookup request.url = none →
      (sameOriginStrategy P request w).1 = Except.ok (some r)) := by
  obtain ⟨first, hfirst⟩ := CacheStorage.lookup_isSome_of_get _ _ _ _ hs
  have hrun : sameOriginStrategy P request w
      = (Except.ok (some first), { w with console := w.console ++
          ["Service Worker: Serving from cache: " ++ request.url] }) := by
    simp [sameOriginStrategy, Async.andThen, cachesMatch, hfirst, consoleLog, Async.resolve]
  refine ⟨by simp [fetchHandler, hm, ho], ⟨first, hfirst, by rw [hrun]⟩, by rw [hrun],
    by rw [hrun], ?_⟩
  intro pre post c hw hpre hmiss
  have hget : w.caches.get STATIC_CACHE_NAME = c := by
    rw [hw]; exact CacheStorage.get_of_first pre post _ c hpre
  have hlook : w.caches.lookup request.url = some r := by
    rw [hget] at hs
    rw [hw, CacheStorage.lookup_append, hmiss]
    simp [CacheStorage.lookup, hs]
  rw [hrun]
  rw [hfirst] at hlook
  simp only [hlook]

/-- Check of the amended C1 on the storage `staleFirst` with the stale partition
removed. -/
theorem static_hit_first_match_witness :
    (sameOriginStrategy offlinePlatform ⟨"GET", "https://app.example/index.html", "document"⟩
        (World.start [("ephone-static-v1.3.0",
          [("https://app.example/index.html", newPage)])])).1
      = Except.ok (some newPage) :=
  (static_hit_first_match offlinePlatform
    (World.start [("ephone-static-v1.3.0", [("https://app.example/index.html", newPage)])])
    ⟨"GET", "https://app.example/index.html", "document"⟩ newPage rfl (by decide)
    (by decide)).2.2.2.2 [] [] [("https://app.example/index.html", newPage)] rfl
      (by simp) rfl

/-- C2: a same-origin GET request that misses the cache and whose network fetch returns
a response `r`.  The caller receives `r` after exactly one network request.  If `r`
has status 200 and type `basic` (and the store accepts the entry), `r` is stored in the
Static Partition under the request, and an identical later request is answered with
`r`, whatever the network does then, with no network request and no change of the
storage.  In every other case `r` is forwarded and no partition is modified. -/
theorem same_origin_fill (P : Platform) (w : World) (request : Request) (r : Response)
    (hm : request.method = "GET") (ho : urlOrigin request.url = P.locationOrigin)
    (hmiss : w.caches.lookup request.url = none) (hnet : P.fetch request = Except.ok r) :
    fetchHandler P request = some (sameOriginStrategy P request) ∧
    (sameOriginStrategy P request w).1 = Except.ok (some r) ∧
    (sameOriginStrategy P request w).2.fetched = w.fetched ++ [request.url] ∧
    (r.status = 200 ∧ r.type = "basic" → P.storeFails request.url = false →
      ((sameOriginStrategy P request w).2.caches.get STATIC_CACHE_NAME).lookup request.url
        = some r ∧
      ∀ P2 : Platform,
        (sameOriginStrategy P2 request (sameOriginStrategy P request w).2).1
          = Except.ok (some r) ∧
        (sameOriginStrategy P2 request (sameOriginStrategy P request w).2).2.fetched
          = (sameOriginStrategy P request w).2.fetched ∧
        (sameOriginStrategy P2 request (sameOriginStrategy P request w).2).2.caches
          = (sameOriginStrategy P request w).2.caches) ∧
    (¬ (r.status = 200 ∧ r.type = "basic") →
      (sameOriginStrategy P request w).2.caches = w.caches) := by
  refine ⟨by simp [fetchHandler, hm, ho], ?_, ?_, ?_, ?_⟩
  · by_cases hc : r.status ≠ 200 ∨ r.type ≠ "basic"
    · simp [sameOriginStrategy, Async.andThen, Async.orCatch, cachesMatch, hmiss, fetch,
        hnet, hc, Async.resolve]
    · simp [sameOriginStrategy, Async.andThen, Async.orCatch, cachesMatch, hmiss, fetch,
        hnet, hc, Async.resolve, Async.background]
  · by_cases hc : r.status ≠ 200 ∨ r.type ≠ "basic"
    · simp [sameOriginStrategy, Async.andThen, Async.orCatch, cachesMatch, hmiss, fetch,
        hnet, hc, Async.resolve]
    · by_cases hf : P.storeFails request.url = true
      · simp [sameOriginStrategy, Async.andThen, Async.orCatch, cachesMatch, hmiss, fetch,
          hnet, hc, Async.resolve, Async.background, cachesOpen, cachePut, hf]
      · simp [sameOriginStrategy, Async.andThen, Async.orCatch, cachesMatch, hmiss, fetch,
          hnet, hc, Async.resolve, Async.background, cachesOpen, cachePut, hf]
  · rintro ⟨h200, hbasic⟩ hstore
    have hc : ¬ (r.status ≠ 200 ∨ r.type ≠ "basic") := by simp [h200, hbasic]
    have hcaches : (sameOriginStrategy P request w).2.caches
        = (w.caches.opened STATIC_CACHE_NAME).set STATIC_CACHE_NAME
            (((w.caches.opened STATIC_CACHE_NAME).get STATIC_CACHE_NAME).insert
              request.url r) := by
      simp [sameOriginStrategy, Async.andThen, Async.orCatch, cachesMatch, hmiss, fetch,
        hnet, hc, Async.resolve, Async.background, cachesOpen, cachePut, hstore]
    have hhit : (sameOriginStrategy P request w).2.caches.lookup request.url = some r := by
      rw [hcaches, CacheStorage.lookup_set_of_miss _ _ _ _
        (by rw [CacheStorage.lookup_opened]; exact hmiss) (CacheStorage.has_opened _ _),
        Cache.lookup_insert]
      simp
    refine ⟨?_, ?_⟩
    · rw [hcaches, CacheStorage.get_set _ _ _ (CacheStorage.has_opened _ _),
        Cache.lookup_insert]
      simp
    · intro P2
      have hrun : sameOriginStrategy P2 request (sameOriginStrategy P request w).2
          = (Except.ok (some r), { (sameOriginStrategy P request w).2 with
              console := (sameOriginStrategy P request w).2.console ++
                ["Service Worker: Serving from cache: " ++ request.url] }) := by
        generalize (sameOriginStrategy P request w).2 = w1 at hhit
        simp [sameOriginStrategy, Async.andThen, cachesMatch, hhit, consoleLog,
          Async.resolve]
      rw [hrun]
      exact ⟨rfl, rfl, rfl⟩
  · intro hc
    have hc2 : r.status ≠ 200 ∨ r.type ≠ "basic" := by
      by_cases h200 : r.status = 200
      · right; intro hb; exact hc ⟨h200, hb⟩
      · left; exact h200
    simp [sameOriginStrategy, Async.andThen, Async.orCatch, cachesMatch, hmiss, fetch,
      hnet, hc2, Async.resolve]

/-- Check of C2: with an empty storage the page is fetched once and stored; asked
again while the network is down, it is answered from the Static Partition. -/
theorem same_origin_fill_witness :
    (sameOriginStrategy offlinePlatform ⟨"GET", "https://app.example/index.html", "document"⟩
      (sameOriginStrategy onlinePlatform ⟨"GET", "https://app.example/index.html", "document"⟩
        (World.start [])).2).1 = Except.ok (some newPage) :=
  (((same_origin_fill onlinePlatform (World.start [])
    ⟨"GET", "https://app.example/index.html", "document"⟩ newPage rfl (by decide) rfl
    rfl).2.2.2.1 (by decide) rfl).2 offlinePlatform).1

/-- C6, refuted as stated: with a stale partition created before the Static Partition,
a same-origin document request that misses every cache while the network is down is
answered with the stale partition's shell page `oldPage`, not with the page
`newPage` cached for `./index.html` in the Static Partition. -/
theorem offline_fallback_counterexample :
    urlOrigin "https://app.example/settings" = offlinePlatform.locationOrigin ∧
    staleFirst.lookup "https://app.example/settings" = none ∧
    offlinePlatform.fetch ⟨"GET", "https://app.example/settings", "document"⟩
      = Except.error "offline" ∧
    (staleFirst.get STATIC_CACHE_NAME).lookup (resolveURL offlinePlatform "./index.html")
      = some newPage ∧
    (sameOriginStrategy offlinePlatform ⟨"GET", "https://app.example/settings", "document"⟩
        (World.start staleFirst)).1 = Except.ok (some oldPage) ∧
    oldPage ≠ newPage :=
  ⟨by decide, by decide, rfl, by decide, rfl, by decide⟩

/-- C6, amended: a same-origin GET request that misses the cache and whose network fetch
fails with an error `e`.  If the destination is `document`, the caller receives the
result of looking `./index.html` up across all partitions in creation order, which
is the entry of the Static Partition whenever no partition created before it holds
one; for every other destination the caller receives the failure `e` unchanged.
In neither case is any partition modified. -/
theorem offline_fallback (P : Platform) (w : World) (request : Request) (e : String)
    (hm : request.method = "GET") (ho : urlOrigin request.url = P.locationOrigin)
    (hmiss : w.caches.lookup request.url = none) (hnet : P.fetch request = Except.error e) :
    fetchHandler P request = some (sameOriginStrategy P request) ∧
    (request.destination = "document" →
      (sameOriginStrategy P request w).1
        = Except.ok (w.caches.lookup (resolveURL P "./index.html"))) ∧
    (request.destination = "document" →
      ∀ (pre post : CacheStorage) (c : Cache) (r : Response),
        w.caches = pre ++ (STATIC_CACHE_NAME, c) :: post →
        pre.lookup (resolveURL P "./index.html") = none →
        c.lookup (resolveURL P "./index.html") = some r →
        (sameOriginStrategy P request w).1 = Except.ok (some r)) ∧
    (request.destination ≠ "document" →
      (sameOriginStrategy P request w).1 = Except.error e) ∧
    (sameOriginStrategy P request w).2.caches = w.caches ∧
    (sameOriginStrategy P request w).2.fetched = w.fetched ++ [request.url] := by
  have hdoc : request.destination = "document" →
      (sameOriginStrategy P request w).1
        = Except.ok (w.caches.lookup (resolveURL P "./index.html")) := by
    intro hd
    simp [sameOriginStrategy, Async.andThen, Async.orCatch, cachesMatch, hmiss, fetch,
      hnet, consoleLog, hd]
  refine ⟨by simp [fetchHandler, hm, ho], hdoc, ?_, ?_, ?_, ?_⟩
  · intro hd pre post c r hw hpre hc
    rw [hdoc hd, hw, CacheStorage.lookup_append, hpre]
    simp [CacheStorage.lookup, hc]
  · intro hd
    simp [sameOriginStrategy, Async.andThen, Async.orCatch, cachesMatch, hmiss, fetch,
      hnet, consoleLog, hd, Async.reject]
  · by_cases hd : request.destination = "document"
    · simp [sameOriginStrategy, Async.andThen, Async.orCatch, cachesMatch, hmiss, fetch,
        hnet, consoleLog, hd]
    · simp [sameOriginStrategy, Async.andThen, Async.orCatch, cachesMatch, hmiss, fetch,
        hnet, consoleLog, hd, Async.reject]
  · by_cases hd : request.destination = "document"
    · simp [sameOriginStrategy, Async.andThen, Async.orCatch, cachesMatch, hmiss, fetch,
        hnet, consoleLog, hd]
    · simp [sameOriginStrategy, Async.andThen, Async.orCatch, cachesMatch, hmiss, fetch,
        hnet, consoleLog, hd, Async.reject]

/-- Check of the amended C6: with only the Static Partition present, an offline
navigation to an uncached page is answered with the cached shell page, and an
offline image request fails with the network error. -/
theorem offline_fallback_witness :
    (sameOriginStrategy offlinePlatform ⟨"GET", "https://app.example/settings", "document"⟩
        (World.start [("ephone-static-v1.3.0",
          [("https://app.example/index.html", newPage)])])).1
      = Except.ok (some newPage) ∧
    (sameOriginStrategy offlinePlatform ⟨"GET", "https://app.example/logo.png", "image"⟩
        (World.start [("ephone-static-v1.3.0",
          [("https://app.example/index.html", newPage)])])).1
      = Except.error "offline" :=
  ⟨(offline_fallback offlinePlatform
      (World.start [("ephone-static-v1.3.0", [("https://app.example/index.html", newPage)])])
      ⟨"GET", "https://app.example/settings", "document"⟩ "offline" rfl (by decide)
      (by decide) rfl).2.2.1 rfl [] [] [("https://app.example/index.html", newPage)] newPage
      rfl rfl (by decide),
    (offline_fallback offlinePlatform
      (World.start [("ephone-static-v1.3.0", [("https://app.example/index.html", newPage)])])
      ⟨"GET", "https://app.example/logo.png", "image"⟩ "offline" rfl (by decide)
      (by decide) rfl).2.2.2.1 (by decide)⟩

/-! ## The external-resource strategy -/

theorem CacheStorage.has_set (cs : CacheStorage) (name other : String) (c : Cache) :
    (cs.set other c).has name = cs.has name := by
  induction cs with
  | nil => rfl
  | cons e rest ih =>
    obtain ⟨n, d⟩ := e
    by_cases hn : n = other
    · by_cases hm : other = name
      · simp [CacheStorage.set, CacheStorage.has, hn, hm]
      · simp [CacheStorage.set, CacheStorage.has, hn, hm, ih]
    · by_cases hm : n = name
      · subst hm
        simp [CacheStorage.set, CacheStorage.has, hn]
      · simp [CacheStorage.set, CacheStorage.has, hn, hm, ih]

theorem CacheStorage.opened_of_has (cs : CacheStorage) (name : String)
    (h : cs.has name = true) : cs.opened name = cs := by
  simp [CacheStorage.opened, h]

/-- C7: a cross-origin GET request that matches the External Origin Whitelist, has no
entry in the Dynamic Partition and whose network fetch returns a response `r` with
status 200, whatever the type of `r`.  The caller receives `r`; (the store accepting
the entry) `r` is stored in the Dynamic Partition under the request; a repeat of the
request is answered with `r` from the Dynamic Partition, whatever the network does
then, with no network request; the Static Partition is left unchanged. -/
theorem external_fill (P : Platform) (w : World) (request : Request) (r : Response)
    (hm : request.method = "GET") (ho : urlOrigin request.url ≠ P.locationOrigin)
    (hw : ∃ start ∈ WHITELIST, ∃ rest : String, request.url = start ++ rest)
    (hmiss : (w.caches.get DYNAMIC_CACHE_NAME).lookup request.url = none)
    (hnet : P.fetch request = Except.ok r) (h200 : r.status = 200)
    (hstore : P.storeFails request.url = false) :
    fetchHandler P request = some (externalStrategy P request) ∧
    (externalStrategy P request w).1 = Except.ok (some r) ∧
    (externalStrategy P request w).2.fetched = w.fetched ++ [request.url] ∧
    ((externalStrategy P request w).2.caches.get DYNAMIC_CACHE_NAME).lookup request.url
      = some r ∧
    (∀ P2 : Platform,
      (externalStrategy P2 request (externalStrategy P request w).2).1
        = Except.ok (some r) ∧
      (externalStrategy P2 request (externalStrategy P request w).2).2.fetched
        = (externalStrategy P request w).2.fetched ∧
      (externalStrategy P2 request (externalStrategy P request w).2).2.caches
        = (externalStrategy P request w).2.caches) ∧
    (externalStrategy P request w).2.caches.get STATIC_CACHE_NAME
      = w.caches.get STATIC_CACHE_NAME ∧
    (externalStrategy P request w).2.caches.has STATIC_CACHE_NAME
      = w.caches.has STATIC_CACHE_NAME := by
  have hne : DYNAMIC_CACHE_NAME ≠ STATIC_CACHE_NAME := by decide
  have hmiss1 : ((w.caches.opened DYNAMIC_CACHE_NAME).get DYNAMIC_CACHE_NAME).lookup
      request.url = none := by
    unfold CacheStorage.opened
    by_cases hh : w.caches.has DYNAMIC_CACHE_NAME = true
    · simpa [hh] using hmiss
    · simp only [hh, if_false, Bool.false_eq_true]
      generalize w.caches = cs at hmiss ⊢
      induction cs with
      | nil => simp [CacheStorage.get, Cache.lookup]
      | cons e rest ih =>
        obtain ⟨n, d⟩ := e
        by_cases hn : n = DYNAMIC_CACHE_NAME
        · simpa [CacheStorage.get, hn] using hmiss
        · simp only [CacheStorage.get, hn, if_false] at hmiss
          simpa [CacheStorage.get, hn] using ih hmiss
  have hrun : externalStrategy P request w
      = (Except.ok (some r),
          { w with
            caches := (w.caches.opened DYNAMIC_CACHE_NAME).set DYNAMIC_CACHE_NAME
              (((w.caches.opened DYNAMIC_CACHE_NAME).get DYNAMIC_CACHE_NAME).insert
                request.url r)
            fetched := w.fetched ++ [request.url] }) := by
    simp [externalStrategy, Async.andThen, Async.orCatch, cachesOpen, cacheMatch, hmiss1,
      fetch, hnet, h200, Async.background, cachePut, hstore, Async.resolve]
  have hhit : ((externalStrategy P request w).2.caches.get DYNAMIC_CACHE_NAME).lookup
      request.url = some r := by
    rw [hrun]
    simp only
    rw [CacheStorage.get_set _ _ _ (CacheStorage.has_opened _ _), Cache.lookup_insert]
    simp
  have hhas : (externalStrategy P request w).2.caches.has DYNAMIC_CACHE_NAME = true := by
    rw [hrun]
    simp only
    rw [CacheStorage.has_set]
    exact CacheStorage.has_opened _ _
  refine ⟨(routes_to_external P request hm ho hw), by rw [hrun], by rw [hrun], hhit, ?_,
    ?_, ?_⟩
  · intro P2
    generalize (externalStrategy P request w).2 = w1 at hhit hhas
    have hrun2 : externalStrategy P2 request w1
        = (Except.ok (some r), { w1 with console := w1.console ++
            ["Service Worker: Serving external resource from cache: " ++ request.url] }) := by
      simp [externalStrategy, Async.andThen, cachesOpen, cacheMatch,
        CacheStorage.opened_of_has _ _ hhas, hhit, consoleLog, Async.resolve]
    rw [hrun2]
    exact ⟨rfl, rfl, rfl⟩
  · rw [hrun]
    simp only
    rw [CacheStorage.get_set_other _ _ _ _ hne, CacheStorage.get_opened_other _ _ _ hne]
  · rw [hrun]
    simp only
    rw [CacheStorage.has_set]
    unfold CacheStorage.opened
    by_cases hh : w.caches.has DYNAMIC_CACHE_NAME = true
    · simp [hh]
    · simp only [hh, if_false, Bool.false_eq_true]
      generalize w.caches = cs
      induction cs with
      | nil => simp [CacheStorage.has, hne]
      | cons e rest ih =>
        obtain ⟨n, d⟩ := e
        by_cases hn : n = STATIC_CACHE_NAME
        · simp [CacheStorage.has, hn]
        · simp [CacheStorage.has, hn, ih]

/-- Check of C7: with an empty storage `https://unpkg.com/lib.js` is fetched once and
stored; asked again while the network is down, it is answered from the Dynamic
Partition. -/
theorem external_fill_witness :
    (externalStrategy offlinePlatform ⟨"GET", "https://unpkg.com/lib.js", "script"⟩
      (externalStrategy cdnPlatform ⟨"GET", "https://unpkg.com/lib.js", "script"⟩
        (World.start [])).2).1 = Except.ok (some libScript) :=
  ((external_fill cdnPlatform (World.start []) ⟨"GET", "https://unpkg.com/lib.js", "script"⟩
    libScript rfl (by decide) ⟨"https://unpkg.com/", by decide, "lib.js", by decide⟩ rfl rfl
    rfl rfl).2.2.2.2.1 offlinePlatform).1

/-! ## Installation -/

theorem getRequest_url (url : String) : (getRequest url).url = url := rfl

theorem fetchAll_world (P : Platform) (urls : List String) (w : World) :
    (fetchAll P urls w).2.caches = w.caches ∧
    (fetchAll P urls w).2.console = w.console ∧
    (fetchAll P urls w).2.skipWaitingCalled = w.skipWaitingCalled ∧
    (fetchAll P urls w).2.clientsClaimed = w.clientsClaimed := by
  induction urls generalizing w with
  | nil => simp [fetchAll, Async.resolve]
  | cons u rest ih =>
    cases hf : P.fetch (getRequest u) with
    | error e => simp [fetchAll, Async.andThen, fetch, hf]
    | ok r =>
      by_cases hok : r.ok = true
      · have h := ih { w with fetched := w.fetched ++ [u] }
        simp only [fetchAll, Async.andThen, fetch, hf, hok, if_true, getRequest_url]
        cases hrest : fetchAll P rest { w with fetched := w.fetched ++ [u] } with
        | mk res w1 =>
          rw [hrest] at h
          cases res with
          | error e => simpa using h
          | ok entries => simpa [Async.resolve] using h
      · simp [fetchAll, Async.andThen, fetch, hf, hok, Async.reject]

/-- The fetch phase of `addAll` either yields one entry per URL, each the ok response
that the network gave for it, or fails because some URL had no ok response. -/
theorem fetchAll_result (P : Platform) (urls : List String) (w : World) :
    match (fetchAll P urls w).1 with
    | Except.ok entries =>
      entries.map Prod.fst = urls ∧
        ∀ e ∈ entries, P.fetch (getRequest e.1) = Except.ok e.2 ∧ e.2.ok = true
    | Except.error _ =>
      ∃ u ∈ urls, ∀ r, P.fetch (getRequest u) = Except.ok r → r.ok = false := by
  induction urls generalizing w with
  | nil => simp [fetchAll, Async.resolve]
  | cons u rest ih =>
    cases hf : P.fetch (getRequest u) with
    | error e =>
      simp only [fetchAll, Async.andThen, fetch, hf]
      exact ⟨u, List.mem_cons_self _ _, fun r hr => by rw [hf] at hr; cases hr⟩
    | ok r =>
      by_cases hok : r.ok = true
      · have h := ih { w with fetched := w.fetched ++ [u] }
        simp only [fetchAll, Async.andThen, fetch, hf, hok, if_true, getRequest_url]
        cases hrest : fetchAll P rest { w with fetched := w.fetched ++ [u] } with
        | mk res w1 =>
          rw [hrest] at h
          cases res with
          | error e =>
            obtain ⟨v, hv, hvr⟩ := h
            exact ⟨v, List.mem_cons_of_mem _ hv, hvr⟩
          | ok entries =>
            obtain ⟨hkeys, hall⟩ := h
            refine ⟨by simp [Async.resolve, hkeys], ?_⟩
            intro e he
            simp only [Async.resolve, List.mem_cons] at he
            rcases he with he | he
            · subst he
              exact ⟨hf, hok⟩
            · exact hall e he
      · simp only [fetchAll, Async.andThen, fetch, hf, hok, if_false, Async.reject,
          Bool.false_eq_true]
        refine ⟨u, List.mem_cons_self _ _, fun r1 hr1 => ?_⟩
        have : r1 = r := by
          rw [hf] at hr1
          cases hr1
          rfl
        rw [this]
        simpa using hok

theorem Cache.lookup_foldl_keep (entries : List (String × Response)) (c : Cache)
    (url : String) (r : Response) (hval : ∀ e ∈ entries, e.1 = url → e.2 = r)
    (hc : c.lookup url = some r) :
    (entries.foldl (fun c e => c.insert e.1 e.2) c).lookup url = some r := by
  induction entries generalizing c with
  | nil => simpa using hc
  | cons e rest ih =>
    simp only [List.foldl_cons]
    apply ih _ (fun e1 he1 => hval e1 (List.mem_cons_of_mem _ he1))
    rw [Cache.lookup_insert]
    by_cases hk : e.1 = url
    · simp [hk, hval e (List.mem_cons_self _ _) hk]
    · simp [hk, hc]

/-- After a batch of entries is stored, every key of the batch answers with its value. -/
theorem Cache.lookup_foldl_insert (entries : List (String × Response)) (c : Cache)
    (url : String) (r : Response) (hval : ∀ e ∈ entries, e.1 = url → e.2 = r)
    (hmem : url ∈ entries.map Prod.fst) :
    (entries.foldl (fun c e => c.insert e.1 e.2) c).lookup url = some r := by
  induction entries generalizing c with
  | nil => simp at hmem
  | cons e rest ih =>
    simp only [List.foldl_cons]
    by_cases hk : e.1 = url
    · apply Cache.lookup_foldl_keep rest _ url r
        (fun e1 he1 => hval e1 (List.mem_cons_of_mem _ he1))
      rw [Cache.lookup_insert]
      simp [hk, hval e (List.mem_cons_self _ _) hk]
    · apply ih _ (fun e1 he1 => hval e1 (List.mem_cons_of_mem _ he1))
      simp only [List.map_cons, List.mem_cons] at hmem
      rcases hmem with hmem | hmem
      · exact absurd hmem.symm hk
      · exact hmem

theorem cacheAddAll_fails (P : Platform) (cache : String) (urls : List String) (w : World)
    (hfail : ∃ u ∈ urls, (∀ r, P.fetch (getRequest u) = Except.ok r → r.ok = false) ∨
      P.storeFails u = true) :
    (∃ e, (cacheAddAll P cache urls w).1 = Except.error e) ∧
    (cacheAddAll P cache urls w).2.caches = w.caches ∧
    (cacheAddAll P cache urls w).2.console = w.console ∧
    (cacheAddAll P cache urls w).2.skipWaitingCalled = w.skipWaitingCalled := by
  have hworld := fetchAll_world P urls w
  have hres := fetchAll_result P urls w
  unfold cacheAddAll Async.andThen
  cases hrun : fetchAll P urls w with
  | mk res w1 =>
    rw [hrun] at hworld hres
    cases res with
    | error e => exact ⟨⟨e, rfl⟩, hworld.1, hworld.2.1, hworld.2.2.1⟩
    | ok entries =>
      obtain ⟨hkeys, hall⟩ := hres
      obtain ⟨u, hu, hcause⟩ := hfail
      rw [← hkeys] at hu
      obtain ⟨e, he, heu⟩ := List.mem_map.1 hu
      have hany : entries.any (fun e => P.storeFails e.1) = true := by
        rcases hcause with hnet | hstore
        · have hok := hall e he
          rw [heu] at hok
          have := hnet e.2 hok.1
          rw [hok.2] at this
          cases this
        · exact List.any_eq_true.2 ⟨e, he, by rw [heu]; exact hstore⟩
      simp only [hany, if_true]
      exact ⟨⟨_, rfl⟩, hworld.1, hworld.2.1, hworld.2.2.1⟩

theorem cacheAddAll_succeeds (P : Platform) (cache : String) (urls : List String) (w : World)
    (hhas : w.caches.has cache = true)
    (hall : ∀ u ∈ urls, (∃ r, P.fetch (getRequest u) = Except.ok r ∧ r.ok = true) ∧
      P.storeFails u = false) :
    (cacheAddAll P cache urls w).1 = Except.ok () ∧
    (cacheAddAll P cache urls w).2.console = w.console ∧
    (∀ u ∈ urls, ∀ r, P.fetch (getRequest u) = Except.ok r →
      ((cacheAddAll P cache urls w).2.caches.get cache).lookup u = some r) := by
  have hworld := fetchAll_world P urls w
  have hres := fetchAll_result P urls w
  unfold cacheAddAll Async.andThen
  cases hrun : fetchAll P urls w with
  | mk res w1 =>
    rw [hrun] at hworld hres
    cases res with
    | error e =>
      obtain ⟨u, hu, hbad⟩ := hres
      obtain ⟨⟨r, hr, hok⟩, _⟩ := hall u hu
      have := hbad r hr
      rw [hok] at this
      cases this
    | ok entries =>
      obtain ⟨hkeys, hent⟩ := hres
      have hany : entries.any (fun e => P.storeFails e.1) = false := by
        rw [List.any_eq_false]
        intro e he
        have hmem : e.1 ∈ urls := by
          rw [← hkeys]; exact List.mem_map.2 ⟨e, he, rfl⟩
        simp [(hall e.1 hmem).2]
      simp only [hany, if_false, Bool.false_eq_true]
      refine ⟨trivial, hworld.2.1, ?_⟩
      intro u hu r hr
      rw [CacheStorage.get_set _ _ _ (by rw [hworld.1]; exact hhas)]
      apply Cache.lookup_foldl_insert
      · intro e he heu
        have h1 := (hent e he).1
        rw [heu, hr] at h1
        cases h1
        rfl
      · rw [hkeys]; exact hu

/-- The install listener in terms of the outcome of `cache.addAll`. -/
theorem installHandler_eq (P : Platform) (w : World) :
    installHandler P w =
      match cacheAddAll P STATIC_CACHE_NAME (STATIC_ASSETS.map (resolveURL P))
        { w with
          caches := w.caches.opened STATIC_CACHE_NAME
          console := w.console ++ ["Service Worker: Installing..."]
            ++ ["Service Worker: Caching static assets"] } with
      | (Except.ok _, w3) =>
        (Except.ok (), { w3 with
          console := w3.console ++ ["Service Worker: Static assets cached successfully"]
          skipWaitingCalled := true })
      | (Except.error e, w3) =>
        (Except.ok (), { w3 with
          console := w3.console ++ ["Service Worker: Failed to cache static assets " ++ e] }) := by
  simp only [installHandler, Async.andThen, Async.orCatch, consoleLog, cachesOpen, skipWaiting]
  generalize cacheAddAll P STATIC_CACHE_NAME _ _ = out
  rcases out with ⟨res, w3⟩
  cases res <;> rfl

/-- C3, refuted as stated: the fetch of the single locator `./manifest.json` fails and
`cache.addAll` rejects, yet the promise that the install listener gives to
`event.waitUntil` is fulfilled, so the host sees a successful install. -/
theorem install_failure_counterexample :
    brokenManifestPlatform.fetch (getRequest (resolveURL brokenManifestPlatform "./manifest.json"))
      = Except.error "TypeError: Failed to fetch" ∧
    (cacheAddAll brokenManifestPlatform STATIC_CACHE_NAME
        (STATIC_ASSETS.map (resolveURL brokenManifestPlatform))
        (World.start [])).1 = Except.error "TypeError: Failed to fetch" ∧
    (installHandler brokenManifestPlatform (World.start [])).1 = Except.ok () :=
  ⟨rfl, rfl, rfl⟩

/-- C3, amended: install is all-or-nothing, but its failure is not surfaced to the host.
If fetching or storing any single locator of the Asset Manifest fails (the request
fails, the response has no ok status, or the store rejects the entry), then nothing
of the batch is stored (the storage is the initial one with the Static Partition
opened), `skipWaiting` is not issued and the failure is logged, while the promise
given to `event.waitUntil` is fulfilled. -/
theorem install_failure_swallowed (P : Platform) (w : World)
    (hfail : ∃ locator ∈ STATIC_ASSETS,
      (∀ r, P.fetch (getRequest (resolveURL P locator)) = Except.ok r → r.ok = false) ∨
      P.storeFails (resolveURL P locator) = true) :
    (installHandler P w).1 = Except.ok () ∧
    (installHandler P w).2.skipWaitingCalled = w.skipWaitingCalled ∧
    (installHandler P w).2.caches = w.caches.opened STATIC_CACHE_NAME ∧
    ∃ e, (installHandler P w).2.console = w.console ++
      [ "Service Worker: Installing...",
        "Service Worker: Caching static assets",
        "Service Worker: Failed to cache static assets " ++ e ] := by
  have hurls : ∃ u ∈ STATIC_ASSETS.map (resolveURL P),
      (∀ r, P.fetch (getRequest u) = Except.ok r → r.ok = false) ∨ P.storeFails u = true := by
    obtain ⟨locator, hmem, hcause⟩ := hfail
    exact ⟨resolveURL P locator, List.mem_map.2 ⟨locator, hmem, rfl⟩, hcause⟩
  have h := cacheAddAll_fails P STATIC_CACHE_NAME (STATIC_ASSETS.map (resolveURL P))
    { w with
      caches := w.caches.opened STATIC_CACHE_NAME
      console := w.console ++ ["Service Worker: Installing..."]
        ++ ["Service Worker: Caching static assets"] } hurls
  rw [installHandler_eq]
  revert h
  generalize cacheAddAll P STATIC_CACHE_NAME _ _ = out
  rcases out with ⟨res, w3⟩
  rintro ⟨⟨e, he⟩, hc, hl, hs⟩
  simp only at he hc hl hs
  subst he
  refine ⟨rfl, hs, hc, e, ?_⟩
  simp [hl]

/-- Check of the amended C3 on the platform whose manifest request fails. -/
theorem install_failure_swallowed_witness :
    (installHandler brokenManifestPlatform (World.start [])).1 = Except.ok () ∧
    (installHandler brokenManifestPlatform (World.start [])).2.skipWaitingCalled = false :=
  ⟨(install_failure_swallowed brokenManifestPlatform (World.start [])
      ⟨"./manifest.json", by decide, Or.inl (fun r hr => by
        have hfetch : brokenManifestPlatform.fetch
            (getRequest (resolveURL brokenManifestPlatform "./manifest.json"))
            = Except.error "TypeError: Failed to fetch" := rfl
        rw [hfetch] at hr
        cases hr)⟩).1,
    (install_failure_swallowed brokenManifestPlatform (World.start [])
      ⟨"./manifest.json", by decide, Or.inl (fun r hr => by
        have hfetch : brokenManifestPlatform.fetch
            (getRequest (resolveURL brokenManifestPlatform "./manifest.json"))
            = Except.error "TypeError: Failed to fetch" := rfl
        rw [hfetch] at hr
        cases hr)⟩).2.1⟩

/-- C8: for every initial state of the cache storage, after an install in which every
locator of the Asset Manifest is fetched (with an ok response) and stored
successfully, the install succeeds and each locator has an entry in the Static
Partition, namely the response fetched for it, which `cache.match` on that partition
returns without any network request or other change of the world. -/
theorem install_populates (P : Platform) (w : World)
    (hall : ∀ locator ∈ STATIC_ASSETS,
      (∃ r, P.fetch (getRequest (resolveURL P locator)) = Except.ok r ∧ r.ok = true) ∧
      P.storeFails (resolveURL P locator) = false) :
    (installHandler P w).1 = Except.ok () ∧
    (installHandler P w).2.skipWaitingCalled = true ∧
    ∀ locator ∈ STATIC_ASSETS, ∃ r,
      P.fetch (getRequest (resolveURL P locator)) = Except.ok r ∧
      ((installHandler P w).2.caches.get STATIC_CACHE_NAME).lookup (resolveURL P locator)
        = some r ∧
      cacheMatch STATIC_CACHE_NAME (resolveURL P locator) (installHandler P w).2
        = (Except.ok (some r), (installHandler P w).2) := by
  have hurls : ∀ u ∈ STATIC_ASSETS.map (resolveURL P),
      (∃ r, P.fetch (getRequest u) = Except.ok r ∧ r.ok = true) ∧ P.storeFails u = false := by
    intro u hu
    obtain ⟨locator, hmem, rfl⟩ := List.mem_map.1 hu
    exact hall locator hmem
  have h := cacheAddAll_succeeds P STATIC_CACHE_NAME (STATIC_ASSETS.map (resolveURL P))
    { w with
      caches := w.caches.opened STATIC_CACHE_NAME
      console := w.console ++ ["Service Worker: Installing..."]
        ++ ["Service Worker: Caching static assets"] }
    (CacheStorage.has_opened _ _) hurls
  rw [installHandler_eq]
  revert h
  generalize cacheAddAll P STATIC_CACHE_NAME _ _ = out
  rcases out with ⟨res, w3⟩
  rintro ⟨hres, _, hlook⟩
  simp only at hres hlook
  subst hres
  refine ⟨rfl, rfl, ?_⟩
  intro locator hmem
  obtain ⟨⟨r, hr, _⟩, _⟩ := hall locator hmem
  have hentry := hlook (resolveURL P locator) (List.mem_map.2 ⟨locator, hmem, rfl⟩) r hr
  exact ⟨r, hr, hentry, by simp [cacheMatch, hentry]⟩

/-- Check of C8: on a working network, an install into an empty storage succeeds and
the locator `./index.html` is then answered by the Static Partition. -/
theorem install_populates_witness :
    (installHandler onlinePlatform (World.start [])).1 = Except.ok () ∧
    ∃ r,
      onlinePlatform.fetch (getRequest (resolveURL onlinePlatform "./index.html"))
        = Except.ok r ∧
      ((installHandler onlinePlatform (World.start [])).2.caches.get
          STATIC_CACHE_NAME).lookup (resolveURL onlinePlatform "./index.html") = some r ∧
      cacheMatch STATIC_CACHE_NAME (resolveURL onlinePlatform "./index.html")
          (installHandler onlinePlatform (World.start [])).2
        = (Except.ok (some r), (installHandler onlinePlatform (World.start [])).2) :=
  ⟨(install_populates onlinePlatform (World.start [])
      (fun _ _ => ⟨⟨newPage, rfl, by decide⟩, rfl⟩)).1,
    (install_populates onlinePlatform (World.start [])
      (fun _ _ => ⟨⟨newPage, rfl, by decide⟩, rfl⟩)).2.2 "./index.html" (by decide)⟩

/-! ## Activation -/

theorem activateHandler_eq (P : Platform) :
    activateHandler P =
      (consoleLog "Service Worker: Activating...").andThen fun _ =>
        (cachesKeys.andThen fun cacheNames =>
            Async.all (cacheNames.map (deleteOld P))).andThen fun _ =>
          (consoleLog "Service Worker: Activated successfully").andThen fun _ =>
            clientsClaim := rfl

theorem CacheStorage.remove_eq_filter (cs : CacheStorage) (name : String) :
    cs.remove name = cs.filter (fun e => !decide (e.1 = name)) := by
  induction cs with
  | nil => rfl
  | cons e rest ih =>
    obtain ⟨n, d⟩ := e
    by_cases hn : n = name
    · simp [CacheStorage.remove, hn, ih]
    · simp [CacheStorage.remove, hn, ih]

/-- The effect of one callback on the world. -/
theorem deleteOld_run (P : Platform) (n : String) (w : World) :
    (deleteOld P n w).2.caches
        = w.caches.filter (fun e =>
            !(decide (e.1 = n) && (!isCurrent n && !(P.deleteOutcome n).isFailed))) ∧
    (deleteOld P n w).2.clientsClaimed = w.clientsClaimed ∧
    (deleteOld P n w).2.fetched = w.fetched ∧
    (deleteOld P n w).2.skipWaitingCalled = w.skipWaitingCalled ∧
    (match (deleteOld P n w).1 with
      | Except.ok _ => (!isCurrent n && (P.deleteOutcome n).isFailed) = false
      | Except.error err => isCurrent n = false ∧ P.deleteOutcome n = DeleteOutcome.failed err) := by
  unfold deleteOld
  by_cases hs : n = STATIC_CACHE_NAME
  · simp [hs, isCurrent, Async.resolve]
  · by_cases hd : n = DYNAMIC_CACHE_NAME
    · simp [hd, isCurrent, Async.resolve]
    · cases ho : P.deleteOutcome n with
      | deleted =>
        simp [hs, hd, isCurrent, Async.resolve, Async.andThen, consoleLog, cachesDelete, ho,
          DeleteOutcome.isFailed, CacheStorage.remove_eq_filter]
      | notFound =>
        simp [hs, hd, isCurrent, Async.resolve, Async.andThen, consoleLog, cachesDelete, ho,
          DeleteOutcome.isFailed, CacheStorage.remove_eq_filter]
      | failed err =>
        simp [hs, hd, isCurrent, Async.resolve, Async.andThen, consoleLog, cachesDelete, ho,
          DeleteOutcome.isFailed]

/-- The effect of `Promise.all` over the callbacks of the activate listener: exactly
the caches whose name is listed, is not current and whose deletion does not reject
are gone, and the result rejects exactly when the deletion of a listed name that is
not current rejects. -/
theorem all_deleteOld (P : Platform) (names : List String) (w : World) :
    (Async.all (names.map (deleteOld P)) w).2.caches
        = w.caches.filter (fun e =>
            !(decide (e.1 ∈ names) && (!isCurrent e.1 && !(P.deleteOutcome e.1).isFailed))) ∧
    (Async.all (names.map (deleteOld P)) w).2.clientsClaimed = w.clientsClaimed ∧
    (Async.all (names.map (deleteOld P)) w).2.fetched = w.fetched ∧
    (Async.all (names.map (deleteOld P)) w).2.skipWaitingCalled = w.skipWaitingCalled ∧
    (match (Async.all (names.map (deleteOld P)) w).1 with
      | Except.ok _ => ∀ n ∈ names, (!isCurrent n && (P.deleteOutcome n).isFailed) = false
      | Except.error err =>
        ∃ n ∈ names, isCurrent n = false ∧ P.deleteOutcome n = DeleteOutcome.failed err) := by
  induction names generalizing w with
  | nil => simp [Async.all, Async.resolve]
  | cons n rest ih =>
    have h1 := deleteOld_run P n w
    simp only [List.map_cons, Async.all]
    cases hrun1 : deleteOld P n w with
    | mk res1 w1 =>
      rw [hrun1] at h1
      obtain ⟨hc1, hk1, hf1, hs1, hr1⟩ := h1
      simp only at hc1 hk1 hf1 hs1 hr1
      have h2 := ih w1
      have hcaches : (Async.all (rest.map (deleteOld P)) w1).2.caches
          = w.caches.filter (fun e => !(decide (e.1 ∈ n :: rest) &&
              (!isCurrent e.1 && !(P.deleteOutcome e.1).isFailed))) := by
        rw [h2.1, hc1, List.filter_filter]
        apply List.filter_congr
        intro e _
        by_cases hen : e.1 = n
        · subst hen
          cases isCurrent e.1 <;> cases (P.deleteOutcome e.1).isFailed <;> simp
        · simp [hen]
      cases res1 with
      | error err =>
        simp only
        refine ⟨hcaches, by rw [h2.2.1, hk1], by rw [h2.2.2.1, hf1], by rw [h2.2.2.2.1, hs1], ?_⟩
        exact ⟨n, List.mem_cons_self _ _, hr1⟩
      | ok a =>
        simp only
        cases hrun2 : Async.all (rest.map (deleteOld P)) w1 with
        | mk res2 w2 =>
          rw [hrun2] at h2 hcaches
          obtain ⟨_, hk2, hf2, hs2, hr2⟩ := h2
          simp only at hk2 hf2 hs2 hr2 hcaches
          cases res2 with
          | error err =>
            simp only
            refine ⟨hcaches, by rw [hk2, hk1], by rw [hf2, hf1], by rw [hs2, hs1], ?_⟩
            obtain ⟨m, hm, hmr⟩ := hr2
            exact ⟨m, List.mem_cons_of_mem _ hm, hmr⟩
          | ok as =>
            simp only
            refine ⟨hcaches, by rw [hk2, hk1], by rw [hf2, hf1], by rw [hs2, hs1], ?_⟩
            intro m hm
            rcases List.mem_cons.1 hm with hm | hm
            · rw [hm]; exact hr1
            · exact hr2 m hm

/-- The activate listener as a whole: the storage afterwards, and when it fulfils. -/
theorem activateHandler_run (P : Platform) (w : World) :
    (activateHandler P w).2.caches
        = w.caches.filter (fun e => isCurrent e.1 || (P.deleteOutcome e.1).isFailed) ∧
    (match (activateHandler P w).1 with
      | Except.ok _ =>
        (∀ e ∈ w.caches, (!isCurrent e.1 && (P.deleteOutcome e.1).isFailed) = false) ∧
          (activateHandler P w).2.clientsClaimed = true
      | Except.error err =>
        (∃ e ∈ w.caches, isCurrent e.1 = false ∧
            P.deleteOutcome e.1 = DeleteOutcome.failed err) ∧
          (activateHandler P w).2.clientsClaimed = w.clientsClaimed) := by
  have h := all_deleteOld P (w.caches.map Prod.fst)
    { w with console := w.console ++ ["Service Worker: Activating..."] }
  rw [activateHandler_eq]
  simp only [Async.andThen, consoleLog, cachesKeys, clientsClaim]
  revert h
  generalize Async.all (List.map (deleteOld P) (w.caches.map Prod.fst)) _ = out
  rcases out with ⟨res, w1⟩
  rintro ⟨hc, hk, _, _, hr⟩
  simp only at hc hk hr
  have hfilter : w1.caches
      = w.caches.filter (fun e => isCurrent e.1 || (P.deleteOutcome e.1).isFailed) := by
    rw [hc]
    apply List.filter_congr
    intro e he
    have hmem : e.1 ∈ w.caches.map Prod.fst := List.mem_map.2 ⟨e, he, rfl⟩
    cases isCurrent e.1 <;> cases (P.deleteOutcome e.1).isFailed <;> simp [hmem]
  cases res with
  | error err =>
    simp only
    refine ⟨hfilter, ?_, hk⟩
    obtain ⟨n, hn, hcur, hfail⟩ := hr
    obtain ⟨e, he, hen⟩ := List.mem_map.1 hn
    exact ⟨e, he, by rw [hen]; exact hcur, by rw [hen]; exact hfail⟩
  | ok a =>
    simp only
    refine ⟨hfilter, ?_, trivial⟩
    intro e he
    exact hr e.1 (List.mem_map.2 ⟨e, he, rfl⟩)

theorem isCurrent_eq_false (n : String) :
    isCurrent n = false ↔ n ≠ STATIC_CACHE_NAME ∧ n ≠ DYNAMIC_CACHE_NAME := by
  simp [isCurrent]

/-- C4: for every initial set of partitions, after the activate listener completes
(the promise given to `event.waitUntil` is fulfilled) the partitions that remain are
exactly the initial ones named `ephone-static-v1.3.0` or `ephone-dynamic-v1.3.0`,
with their content: every partition with another name is absent from the
enumeration, and the current Static and Dynamic partitions are not deleted. -/
theorem activate_keeps_exactly_current (P : Platform) (w : World)
    (hdone : (activateHandler P w).1 = Except.ok ()) :
    (activateHandler P w).2.caches
      = w.caches.filter (fun e => e.1 = STATIC_CACHE_NAME ∨ e.1 = DYNAMIC_CACHE_NAME) ∧
    (cachesKeys (activateHandler P w).2).1
      = Except.ok ((w.caches.map Prod.fst).filter
          (fun n => n = STATIC_CACHE_NAME ∨ n = DYNAMIC_CACHE_NAME)) ∧
    (activateHandler P w).2.caches.get STATIC_CACHE_NAME = w.caches.get STATIC_CACHE_NAME ∧
    (activateHandler P w).2.caches.get DYNAMIC_CACHE_NAME
      = w.caches.get DYNAMIC_CACHE_NAME := by
  have h := activateHandler_run P w
  rw [hdone] at h
  obtain ⟨hc, hok, _⟩ := h
  have hfilter : (activateHandler P w).2.caches
      = w.caches.filter (fun e => e.1 = STATIC_CACHE_NAME ∨ e.1 = DYNAMIC_CACHE_NAME) := by
    rw [hc]
    apply List.filter_congr
    intro e he
    have := hok e he
    cases hcur : isCurrent e.1 with
    | true =>
      simp only [Bool.true_or]
      simpa [isCurrent] using hcur
    | false =>
      rw [hcur] at this
      have hnf : (P.deleteOutcome e.1).isFailed = false := by simpa using this
      have hne := (isCurrent_eq_false e.1).1 hcur
      simp [hnf, hne.1, hne.2]
  have hget : ∀ (cs : CacheStorage) (name : String),
      (name = STATIC_CACHE_NAME ∨ name = DYNAMIC_CACHE_NAME) →
      CacheStorage.get
        (cs.filter (fun e => e.1 = STATIC_CACHE_NAME ∨ e.1 = DYNAMIC_CACHE_NAME)) name
        = cs.get name := by
    intro cs name hname
    induction cs with
    | nil => rfl
    | cons e rest ih =>
      obtain ⟨n, d⟩ := e
      by_cases hn : n = name
      · subst hn
        simp [List.filter, hname, CacheStorage.get]
      · by_cases hk : n = STATIC_CACHE_NAME ∨ n = DYNAMIC_CACHE_NAME
        · simp only [List.filter, hk, decide_True, CacheStorage.get, hn, if_false]
          exact ih
        · simp only [List.filter, hk, decide_False, CacheStorage.get, hn, if_false]
          exact ih
  refine ⟨hfilter, ?_, ?_, ?_⟩
  · simp only [cachesKeys, hfilter]
    congr 1
    induction w.caches with
    | nil => rfl
    | cons e rest ih =>
      by_cases hk : e.1 = STATIC_CACHE_NAME ∨ e.1 = DYNAMIC_CACHE_NAME
      · simp only [List.filter, List.map_cons, hk, decide_True, ih]
      · simp only [List.filter, List.map_cons, hk, decide_False, ih]
  · rw [hfilter]; exact hget _ _ (Or.inl rfl)
  · rw [hfilter]; exact hget _ _ (Or.inr rfl)

/-- Check of C4: activation over a storage that still holds the static partition of
the previous version leaves only the current Static Partition. -/
theorem activate_keeps_exactly_current_witness :
    (cachesKeys (activateHandler offlinePlatform (World.start staleFirst)).2).1
      = Except.ok ((staleFirst.map Prod.fst).filter
          (fun n => n = STATIC_CACHE_NAME ∨ n = DYNAMIC_CACHE_NAME)) ∧
    (staleFirst.map Prod.fst).filter
        (fun n => n = STATIC_CACHE_NAME ∨ n = DYNAMIC_CACHE_NAME) = ["ephone-static-v1.3.0"] :=
  ⟨(activate_keeps_exactly_current offlinePlatform (World.start staleFirst) rfl).2.1,
    by decide⟩

/-- C9, refuted as stated: when the deletion of one stale partition rejects, the promise
that the activate listener gives to `event.waitUntil` rejects with that failure and
`clients.claim()` is not called. -/
theorem activate_failure_counterexample :
    failingDeletePlatform.deleteOutcome "ephone-static-v1.2.0"
      = DeleteOutcome.failed "UnknownError" ∧
    (activateHandler failingDeletePlatform (World.start staleFirst)).1
      = Except.error "UnknownError" ∧
    (activateHandler failingDeletePlatform (World.start staleFirst)).2.clientsClaimed
      = false :=
  ⟨rfl, rfl, rfl⟩

/-- C9, amended: for every outcome of the individual deletions in which none rejects
(each one succeeds or reports that the partition did not exist, the two not being
distinguished), activation completes successfully and control over the open client
pages is claimed afterwards; when the deletion of some stale partition rejects, the
promise given to the host rejects and `clients.claim()` is not called. -/
theorem activate_deletion_outcomes (P : Platform) (w : World) :
    ((∀ e ∈ w.caches, e.1 ≠ STATIC_CACHE_NAME → e.1 ≠ DYNAMIC_CACHE_NAME →
        ∀ err, P.deleteOutcome e.1 ≠ DeleteOutcome.failed err) →
      (activateHandler P w).1 = Except.ok () ∧
      (activateHandler P w).2.clientsClaimed = true) ∧
    ((∃ e ∈ w.caches, e.1 ≠ STATIC_CACHE_NAME ∧ e.1 ≠ DYNAMIC_CACHE_NAME ∧
        ∃ err, P.deleteOutcome e.1 = DeleteOutcome.failed err) →
      (∃ err, (activateHandler P w).1 = Except.error err) ∧
      (activateHandler P w).2.clientsClaimed = w.clientsClaimed) := by
  have h := (activateHandler_run P w).2
  constructor
  · intro hnone
    cases hres : (activateHandler P w).1 with
    | error err =>
      rw [hres] at h
      obtain ⟨⟨e, he, hcur, hfail⟩, _⟩ := h
      have hne := (isCurrent_eq_false e.1).1 hcur
      exact absurd hfail (hnone e he hne.1 hne.2 err)
    | ok a =>
      rw [hres] at h
      exact ⟨rfl, h.2⟩
  · rintro ⟨e, he, hs, hd, err, hfail⟩
    cases hres : (activateHandler P w).1 with
    | error err1 =>
      rw [hres] at h
      exact ⟨⟨err1, rfl⟩, h.2⟩
    | ok a =>
      rw [hres] at h
      have hcur := (isCurrent_eq_false e.1).2 ⟨hs, hd⟩
      have := h.1 e he
      rw [hcur, hfail] at this
      simp [DeleteOutcome.isFailed] at this

/-- Check of the amended C9: with working deletions activation over `staleFirst`
completes and claims the clients; with a rejecting deletion it rejects. -/
theorem activate_deletion_outcomes_witness :
    ((activateHandler offlinePlatform (World.start staleFirst)).1 = Except.ok () ∧
      (activateHandler offlinePlatform (World.start staleFirst)).2.clientsClaimed = true) ∧
    ((∃ err, (activateHandler failingDeletePlatform (World.start staleFirst)).1
        = Except.error err) ∧
      (activateHandler failingDeletePlatform (World.start staleFirst)).2.clientsClaimed
        = (World.start staleFirst).clientsClaimed) :=
  ⟨(activate_deletion_outcomes offlinePlatform (World.start staleFirst)).1
      (fun _ _ _ _ err h => by cases h),
    (activate_deletion_outcomes failingDeletePlatform (World.start staleFirst)).2
      ⟨("ephone-static-v1.2.0", [("https://app.example/index.html", oldPage)]),
        by decide, by decide, by decide, "UnknownError", rfl⟩⟩

end ServiceWorker
